import Mathlib

/-!
Shallow embedding of the cylinder-management dashboard (lgas-demo).

Strings are modelled as lists of Unicode code points (`List Nat`); the
identifiers and status labels in play are ASCII.  Dates are modelled as
Gregorian day numbers (`Nat`, days since 0000-03-01 of the proleptic
Gregorian calendar), with `daysFromCivil`/`civilFromDays` converting
to and from (year, month, day) triples; `pd.Timedelta(days := n)`
addition is plain `+ n` on day numbers.
-/

namespace LGas

/-- A string as a list of code points. -/
abbrev Str := List Nat

/-- ASCII upper-casing of one code point, the model of Python's
`str.upper` on the ASCII data this app handles. -/
def upChar (c : Nat) : Nat :=
  if 97 ≤ c ∧ c ≤ 122 then c - 32 else c

/-- `s.upper()`. -/
def upStr (s : Str) : Str := s.map upChar

/-- Whitespace as stripped by Python's `str.strip()` (space, tab, LF,
VT, FF, CR). -/
def isWS (c : Nat) : Bool :=
  decide (c = 32 ∨ c = 9 ∨ c = 10 ∨ c = 11 ∨ c = 12 ∨ c = 13)

/-- `s.strip()`: drop whitespace from both ends. -/
def trimStr (s : Str) : Str :=
  ((s.dropWhile isWS).reverse.dropWhile isWS).reverse

/-- Does `needle` occur at the head of `hay`? -/
def leadEq : Str → Str → Bool
  | [], _ => true
  | _ :: _, [] => false
  | a :: as, b :: bs => a == b && leadEq as bs

/-- Plain substring containment — the spec's reading of the finder's
text matching ("substring matches are case-insensitive").  The source
actually calls `pandas.Series.str.contains`, whose default is regex
matching; the two are compared below: they coincide exactly on queries
free of regex metacharacters. -/
def hasSub : Str → Str → Bool
  | [], needle => leadEq needle []
  | h :: t, needle => leadEq needle (h :: t) || hasSub t needle

/-- ASCII decimal digit. -/
def isDigitCh (c : Nat) : Bool := decide (48 ≤ c ∧ c ≤ 57)

/-- Numeric value of a digit string (`int(pin)`). -/
def digitsToNat (s : Str) : Nat :=
  s.foldl (fun a c => a * 10 + (c - 48)) 0

/-- `int(pin) if pin.isdigit() else 0` — Python's `isdigit` is false on
the empty string. -/
def pinValue (s : Str) : Nat :=
  if s ≠ [] ∧ s.all isDigitCh then digitsToNat s else 0

/-- "Full". -/
def fullStr : Str := [70, 117, 108, 108]
/-- "Empty". -/
def emptyStr : Str := [69, 109, 112, 116, 121]
/-- "Damaged". -/
def damagedStr : Str := [68, 97, 109, 97, 103, 101, 100]
/-- "All", the status-filter sentinel. -/
def allStr : Str := [65, 108, 108]
/-- "LEO-001". -/
def leoStr : Str := [76, 69, 79, 45, 48, 48, 49]

/-- Day number of a Gregorian date (days since 0000-03-01), valid for
years ≥ 1; the standard era-based civil-calendar algorithm. -/
def daysFromCivil (y m d : Nat) : Nat :=
  let y' := if m ≤ 2 then y - 1 else y
  let era := y' / 400
  let yoe := y' % 400
  let mp := (m + 9) % 12
  let doy := (153 * mp + 2) / 5 + (d - 1)
  let doe := yoe * 365 + yoe / 4 - yoe / 100 + doy
  era * 146097 + doe

/-- Inverse of `daysFromCivil`: (year, month, day) of a day number. -/
def civilFromDays (z : Nat) : Nat × Nat × Nat :=
  let era := z / 146097
  let doe := z % 146097
  let yoe := (doe - doe / 1460 + doe / 36524 - doe / 146096) / 365
  let y := yoe + era * 400
  let doy := doe - (365 * yoe + yoe / 4 - yoe / 100)
  let mp := (5 * doy + 2) / 153
  let d := doy - (153 * mp + 2) / 5 + 1
  let m := if mp < 10 then mp + 3 else mp - 9
  (if m ≤ 2 then y + 1 else y, m, d)

/-- The overdue test of the Dashboard and of `highlight_overdue`:
`Next_Test_Due.date() <= today`. -/
def is_overdue (due ref : Nat) : Bool := decide (due ≤ ref)

/-- The overdue test on a possibly missing due date: `pd.to_datetime`
with `errors := coerce` turns a null or unparseable date into `NaT`
(here `none`), and a comparison against `NaT` is false. -/
def is_overdue_opt (due : Option Nat) (ref : Nat) : Bool :=
  match due with
  | none => false
  | some d => decide (d ≤ ref)

/-- The fixed capacity options of the registration selectbox
([5.0, 10.0, 14.2, 19.0, 47.5] kg). -/
inductive Capacity where
  | c5 | c10 | c142 | c19 | c475
deriving DecidableEq

/-- One row of the `cylinders` table as the app sees it after loading
(date columns coerced, so possibly `none`). -/
structure CRecord where
  cylinder_id : Str
  customer_name : Str
  location_pin : Nat
  capacity : Capacity
  fill_percent : Nat
  status : Str
  last_fill_date : Option Nat
  last_test_date : Option Nat
  next_test_due : Option Nat
  overdue : Bool
deriving DecidableEq

/-- `overdue_count` of the Dashboard:
`len(df[df["Next_Test_Due"].dt.date <= today])`. -/
def overdue_count (recs : List CRecord) (today : Nat) : Nat :=
  (recs.filter (fun r => is_overdue_opt r.next_test_due today)).length

/-- The condition selectbox of the Return & Penalty Log:
["Good", "Dented", "Leaking", "Valve Damage"]. -/
inductive Cond where
  | Good | Dented | Leaking | ValveDamage
deriving DecidableEq

/-- `new_status = "Empty" if condition == "Good" else "Damaged"`. -/
def returnNewStatus (c : Cond) : Str :=
  if c = Cond.Good then emptyStr else damagedStr

/-- Modelled from the spec: the Penalty Calculator
`compute_return(condition, was_overdue)` is not present in the supplied
source (the Return & Penalty Log in `src/lgas1.py` records no penalty,
and the variant file is truncated before its penalty code); the spec's
policy is base 0, plus 500 if condition ≠ Good, plus 1000 if
was_overdue.  The new status comes from the source's rule
(`returnNewStatus`). -/
def compute_return (c : Cond) (was_overdue : Bool) : Nat × Str :=
  ((if c = Cond.Good then 0 else 500) + (if was_overdue then 1000 else 0),
   returnNewStatus c)

/-- A partial row update as sent to the store: `none` fields are absent
from the update mapping and left untouched. -/
structure FieldPatch where
  cylinder_id : Option Str := none
  customer_name : Option Str := none
  location_pin : Option Nat := none
  capacity : Option Capacity := none
  fill_percent : Option Nat := none
  status : Option Str := none
  last_fill_date : Option (Option Nat) := none
  last_test_date : Option (Option Nat) := none
  next_test_due : Option (Option Nat) := none
  overdue : Option Bool := none
deriving DecidableEq

/-- How the store applies a partial update to a row. -/
def applyPatch (r : CRecord) (u : FieldPatch) : CRecord :=
  { cylinder_id := u.cylinder_id.getD r.cylinder_id
    customer_name := u.customer_name.getD r.customer_name
    location_pin := u.location_pin.getD r.location_pin
    capacity := u.capacity.getD r.capacity
    fill_percent := u.fill_percent.getD r.fill_percent
    status := u.status.getD r.status
    last_fill_date := u.last_fill_date.getD r.last_fill_date
    last_test_date := u.last_test_date.getD r.last_test_date
    next_test_due := u.next_test_due.getD r.next_test_due
    overdue := u.overdue.getD r.overdue }

/-- The update mapping of the return workflow:
`{"Status": new_status, "Fill_Percent": 0}` and nothing else. -/
def returnPatch (c : Cond) : FieldPatch :=
  { status := some (returnNewStatus c), fill_percent := some 0 }

/-- A call issued to the external store. -/
inductive StoreCall where
  | insert (p : CRecord)
  | update (cid : Str) (u : FieldPatch)
deriving DecidableEq

/-- The calls issued by one submission of the return form. -/
def returnFlowCalls (target : Str) (c : Cond) : List StoreCall :=
  [StoreCall.update target (returnPatch c)]

/-- The insert payload built by the Add New Cylinder form (input id
already normalized to `cid`): `Fill_Percent` 100, `Status` "Full", the
three dates from `today` with `Next_Test_Due = today + 1825 days`,
`Overdue` false. -/
def mkPayload (cid cust pin : Str) (cap : Capacity) (today : Nat) : CRecord :=
  { cylinder_id := cid
    customer_name := cust
    location_pin := pinValue pin
    capacity := cap
    fill_percent := 100
    status := fullStr
    last_fill_date := some today
    last_test_date := some today
    next_test_due := some (today + 1825)
    overdue := false }

/-- Outcome of submitting the Add New Cylinder form. -/
inductive RegOutcome where
  | missingId
  | inserted (p : CRecord)
deriving DecidableEq

/-- The Add New Cylinder submit handler: `c_id = input.strip().upper()`;
`if not c_id` report "Missing Cylinder ID!", else build the payload and
insert it.  No other validation happens before the store call. -/
def addCylinderSubmit (raw cust pin : Str) (cap : Capacity) (today : Nat) :
    RegOutcome :=
  if upStr (trimStr raw) = [] then RegOutcome.missingId
  else RegOutcome.inserted (mkPayload (upStr (trimStr raw)) cust pin cap today)

/-- The store calls issued by one registration outcome. -/
def regCalls : RegOutcome → List StoreCall
  | RegOutcome.missingId => []
  | RegOutcome.inserted p => [StoreCall.insert p]

/-- The store calls issued by one submission of the Add New Cylinder
form. -/
def addCylinderCalls (raw cust pin : Str) (cap : Capacity) (today : Nat) :
    List StoreCall :=
  regCalls (addCylinderSubmit raw cust pin cap today)

/-- One atom of a compiled query pattern.  `Series.str.contains`
treats its query as a regular expression by default, so an ordinary
character matches itself and `.` matches any character. -/
inductive RAtom where
  | lit (c : Nat)
  | dot
deriving DecidableEq

/-- Does one pattern atom match one input character?  Python's `.`
matches any character except a newline (code 10). -/
def atomMatch : RAtom → Nat → Bool
  | RAtom.lit d, a => d == a
  | RAtom.dot, a => !(a == 10)

/-- Does the atom sequence match at the head of the input? -/
def leadMatch : List RAtom → Str → Bool
  | [], _ => true
  | _ :: _, [] => false
  | p :: ps, a :: s => atomMatch p a && leadMatch ps s

/-- `re.search` semantics for an atom-sequence pattern: does it match
starting at some position of the input? -/
def reSearch (ps : List RAtom) : Str → Bool
  | [] => leadMatch ps []
  | a :: s => leadMatch ps (a :: s) || reSearch ps s

/-- The regex metacharacters of Python's `re` module. -/
def reMeta (c : Nat) : Bool :=
  decide (c ∈ [46, 94, 36, 42, 43, 63, 123, 125, 91, 93, 92, 124, 40, 41])

/-- Compile one query character: `.` (code 46) is the wildcard, an
ordinary character matches itself, and every other metacharacter is
outside the modelled fragment (`none`). -/
def reAtom (c : Nat) : Option RAtom :=
  if c = 46 then some RAtom.dot
  else if reMeta c = true then none
  else some (RAtom.lit c)

/-- Compile a query into an atom sequence.  The modelled fragment of
Python `re` is: literal characters and the `.` wildcard.  `none` marks
a query outside this fragment — the program then follows full Python
regex semantics (quantifiers, classes, groups, anchors, escapes — and
an invalid pattern such as a lone `(` raises `re.error`), which this
embedding deliberately does not totalize. -/
def reParse : Str → Option (List RAtom)
  | [] => some []
  | c :: cs => (reAtom c).bind fun a => (reParse cs).map fun ps => a :: ps

/-- The ID filter of the Cylinder Finder: the query is stripped and
upper-cased at the widget, and when non-empty it is used as the
pattern of `Cylinder_ID.str.upper().str.contains(s_id, na := False)` —
a regex match against the upper-cased id.  `none` when the pattern is
outside the modelled regex fragment. -/
def idFilterRe (rawId : Str) (recs : List CRecord) : Option (List CRecord) :=
  if upStr (trimStr rawId) = [] then some recs
  else (reParse (upStr (trimStr rawId))).map
    (fun ps => recs.filter (fun r => reSearch ps (upStr r.cylinder_id)))

/-- The customer filter: `Customer_Name.str.contains(s_name, case :=
False, na := False)` when the stripped query is non-empty — a
case-insensitive regex match, modelled by upper-casing pattern and
text (equivalent to `re.IGNORECASE` on the ASCII fragment; the
metacharacters are unchanged by upper-casing).  `none` when the
pattern is outside the modelled regex fragment. -/
def nameFilterRe (rawName : Str) (recs : List CRecord) : Option (List CRecord) :=
  if trimStr rawName = [] then some recs
  else (reParse (upStr (trimStr rawName))).map
    (fun ps => recs.filter (fun r => reSearch ps (upStr r.customer_name)))

/-- The status filter: exact match unless the sentinel "All". -/
def statusFilter (sStatus : Str) (recs : List CRecord) : List CRecord :=
  if sStatus = allStr then recs
  else recs.filter (fun r => decide (r.status = sStatus))

/-- The three filters applied in source order; `none` when a text
query falls outside the modelled regex fragment. -/
def cylinderFinderRe (recs : List CRecord) (rawId rawName sStatus : Str) :
    Option (List CRecord) :=
  (idFilterRe rawId recs).bind fun l1 =>
    (nameFilterRe rawName l1).bind fun l2 =>
      some (statusFilter sStatus l2)

/-- Records reachable through creation followed by any sequence of
return-workflow updates. -/
inductive ReachableRec : CRecord → Prop
  | created (raw cust pin : Str) (cap : Capacity) (today : Nat) (p : CRecord) :
      addCylinderSubmit raw cust pin cap today = RegOutcome.inserted p →
      ReachableRec p
  | returned (r : CRecord) (c : Cond) :
      ReachableRec r → ReachableRec (applyPatch r (returnPatch c))

/-- A sample loaded row with id "LEO-001". -/
def leoRec : CRecord :=
  { cylinder_id := leoStr
    customer_name := [65, 99, 109, 101]
    location_pin := 500001
    capacity := Capacity.c142
    fill_percent := 100
    status := fullStr
    last_fill_date := some 739922
    last_test_date := some 739922
    next_test_due := some 741747
    overdue := false }

/-- A sample loaded row whose `Next_Test_Due` failed to parse
(coerced to `NaT`). -/
def nullDueRec : CRecord :=
  { cylinder_id := leoStr
    customer_name := []
    location_pin := 0
    capacity := Capacity.c5
    fill_percent := 0
    status := emptyStr
    last_fill_date := none
    last_test_date := none
    next_test_due := none
    overdue := false }

/-! ### Helper lemmas on the string model -/

lemma upChar_fix_of_lower {c : Nat} (h : 97 ≤ c ∧ c ≤ 122) : upChar c = c - 32 := by
  simp [upChar, h]

lemma upChar_fix_of_not_lower {c : Nat} (h : ¬ (97 ≤ c ∧ c ≤ 122)) : upChar c = c := by
  simp [upChar, h]

lemma upChar_not_lower (c : Nat) : ¬ (97 ≤ upChar c ∧ upChar c ≤ 122) := by
  by_cases h : 97 ≤ c ∧ c ≤ 122
  · rw [upChar_fix_of_lower h]; omega
  · rw [upChar_fix_of_not_lower h]; exact h

lemma upChar_idem (c : Nat) : upChar (upChar c) = upChar c :=
  upChar_fix_of_not_lower (upChar_not_lower c)

lemma upStr_idem (s : Str) : upStr (upStr s) = upStr s := by
  induction s with
  | nil => rfl
  | cons a t ih =>
      show upChar (upChar a) :: upStr (upStr t) = upChar a :: upStr t
      rw [upChar_idem, ih]

lemma upStr_eq_nil_iff (s : Str) : upStr s = [] ↔ s = [] := List.map_eq_nil_iff

lemma isWS_upChar (c : Nat) : isWS (upChar c) = isWS c := by
  by_cases h : 97 ≤ c ∧ c ≤ 122
  · rw [upChar_fix_of_lower h]
    have h1 : isWS (c - 32) = false := decide_eq_false_iff_not.mpr (by omega)
    have h2 : isWS c = false := decide_eq_false_iff_not.mpr (by omega)
    rw [h1, h2]
  · rw [upChar_fix_of_not_lower h]

lemma head?_dropWhile_false (p : Nat → Bool) (l : List Nat) :
    ∀ x, (l.dropWhile p).head? = some x → p x = false := by
  induction l with
  | nil => intro x hx; cases hx
  | cons a t ih =>
      intro x hx
      rw [List.dropWhile_cons] at hx
      by_cases ha : p a = true
      · rw [if_pos ha] at hx; exact ih x hx
      · rw [if_neg ha] at hx
        cases hx
        exact Bool.not_eq_true _ ▸ Bool.of_not_eq_true ha

lemma dropWhile_eq_self_of_head (p : Nat → Bool) (l : List Nat)
    (h : ∀ x, l.head? = some x → p x = false) : l.dropWhile p = l := by
  cases l with
  | nil => rfl
  | cons a t =>
      rw [List.dropWhile_cons, if_neg]
      rw [h a rfl]
      simp

lemma getLast?_trimStr_false (s : Str) :
    ∀ x, (trimStr s).getLast? = some x → isWS x = false := by
  intro x hx
  unfold trimStr at hx
  rw [List.getLast?_reverse] at hx
  exact head?_dropWhile_false isWS _ x hx

lemma head?_trimStr_false (s : Str) :
    ∀ x, (trimStr s).head? = some x → isWS x = false := by
  intro x hx
  unfold trimStr at hx
  rw [List.head?_reverse] at hx
  obtain ⟨pre, hpre⟩ := List.dropWhile_suffix (l := (s.dropWhile isWS).reverse) isWS
  have hne : (s.dropWhile isWS).reverse.dropWhile isWS ≠ [] := by
    intro hn; rw [hn] at hx; cases hx
  have h2 : ((s.dropWhile isWS).reverse).getLast? = some x := by
    rw [← hpre, List.getLast?_append, hx]; rfl
  rw [List.getLast?_reverse] at h2
  exact head?_dropWhile_false isWS s x h2

lemma trimStr_fix (l : Str)
    (h1 : ∀ x, l.head? = some x → isWS x = false)
    (h2 : ∀ x, l.getLast? = some x → isWS x = false) : trimStr l = l := by
  unfold trimStr
  rw [dropWhile_eq_self_of_head isWS l h1]
  rw [dropWhile_eq_self_of_head isWS l.reverse
    (fun x hx => h2 x (List.head?_reverse l ▸ hx))]
  exact List.reverse_reverse l

lemma head?_upStr_trim_false (s : Str) :
    ∀ x, (upStr (trimStr s)).head? = some x → isWS x = false := by
  intro x hx
  rw [upStr, List.head?_map] at hx
  cases hh : (trimStr s).head? with
  | none => rw [hh] at hx; cases hx
  | some y =>
      rw [hh] at hx
      cases hx
      rw [isWS_upChar]
      exact head?_trimStr_false s y hh

lemma getLast?_upStr_trim_false (s : Str) :
    ∀ x, (upStr (trimStr s)).getLast? = some x → isWS x = false := by
  intro x hx
  rw [upStr, List.getLast?_map] at hx
  cases hh : (trimStr s).getLast? with
  | none => rw [hh] at hx; cases hx
  | some y =>
      rw [hh] at hx
      cases hx
      rw [isWS_upChar]
      exact getLast?_trimStr_false s y hh

lemma trimStr_upStr_trimStr (s : Str) :
    trimStr (upStr (trimStr s)) = upStr (trimStr s) :=
  trimStr_fix _ (head?_upStr_trim_false s) (getLast?_upStr_trim_false s)

lemma upStr_all_not_lower (s : Str) :
    (upStr s).all (fun x => decide (¬ (97 ≤ x ∧ x ≤ 122))) = true := by
  induction s with
  | nil => rfl
  | cons a t ih =>
      simp only [upStr, List.map_cons, List.all_cons, Bool.and_eq_true] at ih ⊢
      exact ⟨decide_eq_true (upChar_not_lower a), ih⟩

/-! ### C1, C3, C5, C7 -/

/-- C1: `compute_return` adds a 500-unit damage surcharge when the
condition is not Good and a 1000-unit lateness surcharge when the
return was overdue, on a base of 0; the four quoted cases evaluate as
stated, and the new status is Empty exactly for condition Good,
Damaged otherwise. -/
theorem compute_return_policy :
    (∀ c b, compute_return c b =
      ((if c = Cond.Good then 0 else 500) + (if b then 1000 else 0),
       if c = Cond.Good then emptyStr else damagedStr))
    ∧ compute_return Cond.Good false = (0, emptyStr)
    ∧ compute_return Cond.Good true = (1000, emptyStr)
    ∧ compute_return Cond.Dented false = (500, damagedStr)
    ∧ compute_return Cond.Leaking true = (1500, damagedStr)
    ∧ (∀ c b, ((compute_return c b).2 = emptyStr ↔ c = Cond.Good)
        ∧ ((compute_return c b).2 = damagedStr ↔ c ≠ Cond.Good)) := by
  refine ⟨?_, rfl, rfl, rfl, rfl, ?_⟩
  · intro c b; cases c <;> cases b <;> rfl
  · intro c b; cases c <;> cases b <;> exact ⟨by decide, by decide⟩

/-- C3: the overdue test of the Dashboard and of `highlight_overdue`
(`Next_Test_Due <= today`) holds iff the reference date is on or after
the due date; the boundary `reference = due` counts as overdue. -/
theorem is_overdue_iff (d r : Nat) :
    (is_overdue d r = true ↔ r ≥ d) ∧ is_overdue d d = true := by
  constructor
  · simp [is_overdue, ge_iff_le]
  · simp [is_overdue]

/-- C5 counterexample: `2026-01-01 + 1825 days` is not `2030-12-30`
(the span contains one leap day, 2028-02-29, so it lands on
`2030-12-31`). -/
theorem next_test_due_example_cex :
    civilFromDays (daysFromCivil 2026 1 1 + 1825) ≠ (2030, 12, 30) := by
  decide

/-- C5 amended: for creation date 2026-01-01 the computed
`next_test_due` (creation + 1825 days) is 2030-12-31, and the record
built for "LEO-099" carries exactly that date with status "Full". -/
theorem next_test_due_example :
    civilFromDays (daysFromCivil 2026 1 1 + 1825) = (2030, 12, 31)
    ∧ (mkPayload [76, 69, 79, 45, 48, 57, 57] [65, 99, 109, 101]
        [53, 48, 48, 48, 48, 49] Capacity.c142
        (daysFromCivil 2026 1 1)).next_test_due
      = some (daysFromCivil 2030 12 31)
    ∧ (mkPayload [76, 69, 79, 45, 48, 57, 57] [65, 99, 109, 101]
        [53, 48, 48, 48, 48, 49] Capacity.c142
        (daysFromCivil 2026 1 1)).status = fullStr := by
  exact ⟨by decide, by decide, rfl⟩

/-- C7: the return-workflow update carries exactly `Status` and
`Fill_Percent := 0`; every other column of the patch is absent, and
applying it leaves every other field of the record unchanged. -/
theorem return_update_frame (r : CRecord) (c : Cond) :
    returnFlowCalls r.cylinder_id c
      = [StoreCall.update r.cylinder_id (returnPatch c)]
    ∧ (returnPatch c).status = some (returnNewStatus c)
    ∧ (returnPatch c).fill_percent = some 0
    ∧ (returnPatch c).cylinder_id = none
    ∧ (returnPatch c).customer_name = none
    ∧ (returnPatch c).location_pin = none
    ∧ (returnPatch c).capacity = none
    ∧ (returnPatch c).last_fill_date = none
    ∧ (returnPatch c).last_test_date = none
    ∧ (returnPatch c).next_test_due = none
    ∧ (returnPatch c).overdue = none
    ∧ applyPatch r (returnPatch c)
      = { r with status := returnNewStatus c, fill_percent := 0 } := by
  exact ⟨rfl, rfl, rfl, rfl, rfl, rfl, rfl, rfl, rfl, rfl, rfl, rfl⟩

/-! ### Membership through the Cylinder Finder filters -/

lemma reParse_lit {q : Str} (hq : q.all (fun c => !reMeta c) = true) :
    reParse q = some (q.map RAtom.lit) := by
  induction q with
  | nil => rfl
  | cons c cs ih =>
      rw [List.all_cons, Bool.and_eq_true] at hq
      obtain ⟨hc, hcs⟩ := hq
      have hm : reMeta c = false := by
        cases h : reMeta c
        · rfl
        · rw [h] at hc; exact absurd hc (by decide)
      have h46 : ¬ c = 46 := by
        intro he; rw [he] at hm; exact absurd hm (by decide)
      have ha : reAtom c = some (RAtom.lit c) := by
        unfold reAtom
        rw [if_neg h46, if_neg (fun hx => by rw [hm] at hx; exact absurd hx (by decide))]
      simp [reParse, ha, ih hcs]

lemma leadMatch_lit (q : Str) : ∀ s : Str, leadMatch (q.map RAtom.lit) s = leadEq q s := by
  induction q with
  | nil => intro s; cases s <;> rfl
  | cons c cs ih =>
      intro s
      cases s with
      | nil => rfl
      | cons a t =>
          show ((c == a) && leadMatch (cs.map RAtom.lit) t) = ((c == a) && leadEq cs t)
          rw [ih t]

lemma reSearch_lit (q s : Str) : reSearch (q.map RAtom.lit) s = hasSub s q := by
  induction s with
  | nil => exact leadMatch_lit q []
  | cons a t ih =>
      show (leadMatch (q.map RAtom.lit) (a :: t) || reSearch (q.map RAtom.lit) t)
        = (leadEq q (a :: t) || hasSub t q)
      rw [leadMatch_lit q (a :: t), ih]

lemma idFilterRe_eq_some {rawId : Str} {ps : List RAtom} (recs : List CRecord)
    (h : reParse (upStr (trimStr rawId)) = some ps) :
    ∃ l, idFilterRe rawId recs = some l
      ∧ ∀ r : CRecord, (r ∈ l ↔
          r ∈ recs ∧ (trimStr rawId = []
            ∨ reSearch ps (upStr r.cylinder_id) = true)) := by
  unfold idFilterRe
  by_cases he : upStr (trimStr rawId) = []
  · rw [if_pos he]
    have h' : trimStr rawId = [] := (upStr_eq_nil_iff _).mp he
    exact ⟨recs, rfl, fun r => by simp [h']⟩
  · rw [if_neg he, h]
    refine ⟨_, rfl, fun r => ?_⟩
    have h' : ¬ trimStr rawId = [] := fun hx => he (by rw [hx]; rfl)
    simp [List.mem_filter, h']

lemma nameFilterRe_eq_some {rawName : Str} {ps : List RAtom} (recs : List CRecord)
    (h : reParse (upStr (trimStr rawName)) = some ps) :
    ∃ l, nameFilterRe rawName recs = some l
      ∧ ∀ r : CRecord, (r ∈ l ↔
          r ∈ recs ∧ (trimStr rawName = []
            ∨ reSearch ps (upStr r.customer_name) = true)) := by
  unfold nameFilterRe
  by_cases he : trimStr rawName = []
  · rw [if_pos he]
    exact ⟨recs, rfl, fun r => by simp [he]⟩
  · rw [if_neg he, h]
    refine ⟨_, rfl, fun r => ?_⟩
    simp [List.mem_filter, he]

lemma mem_statusFilter {sStatus : Str} {recs : List CRecord} {r : CRecord} :
    r ∈ statusFilter sStatus recs ↔
      r ∈ recs ∧ (sStatus = allStr ∨ r.status = sStatus) := by
  unfold statusFilter
  by_cases h : sStatus = allStr
  · rw [if_pos h]; simp [h]
  · rw [if_neg h]; simp [List.mem_filter, h]

/-! ### C2, C4, C6, C8, C9, C10 -/

/-- C2 counterexample: with "LEO-001" already among the existing ids,
submitting the form with that very id still issues an insert against
the store — no duplicate-identifier check happens before the external
call (the store's own uniqueness constraint is what rejects it). -/
theorem addCylinder_dup_cex :
    ¬ (∀ (raw cust pin : Str) (cap : Capacity) (today : Nat)
        (existing : List Str),
        upStr (trimStr raw) ∈ existing →
        addCylinderCalls raw cust pin cap today = []) := by
  intro h
  have hx := h leoStr [] [] Capacity.c142 0 [leoStr] (by decide)
  exact absurd hx (by decide)

/-- C2 amended: an empty trimmed id is rejected as missing before any
store call; for a non-empty id the insert is always attempted — there
is no local duplicate check, whatever the existing ids are. -/
theorem addCylinder_validation (raw cust pin : Str) (cap : Capacity)
    (today : Nat) :
    addCylinderSubmit raw cust pin cap today =
      (if trimStr raw = [] then RegOutcome.missingId
       else RegOutcome.inserted (mkPayload (upStr (trimStr raw)) cust pin cap today))
    ∧ addCylinderCalls raw cust pin cap today =
      (if trimStr raw = [] then []
       else [StoreCall.insert (mkPayload (upStr (trimStr raw)) cust pin cap today)]) := by
  by_cases h : trimStr raw = []
  · have h2 : upStr (trimStr raw) = [] := by rw [h]; rfl
    constructor
    · unfold addCylinderSubmit; rw [if_pos h2, if_pos h]
    · unfold addCylinderCalls addCylinderSubmit; rw [if_pos h2, if_pos h]; rfl
  · have h2 : upStr (trimStr raw) ≠ [] := fun hx => h ((upStr_eq_nil_iff _).mp hx)
    constructor
    · unfold addCylinderSubmit; rw [if_neg h2, if_neg h]
    · unfold addCylinderCalls addCylinderSubmit; rw [if_neg h2, if_neg h]; rfl

/-- C4: every successfully registered payload has status "Full", fill
percent 100, both stored dates equal to the creation date, next test
due 1825 days later, and overdue false. -/
theorem payload_on_success (raw cust pin : Str) (cap : Capacity)
    (today : Nat) (p : CRecord)
    (h : addCylinderSubmit raw cust pin cap today = RegOutcome.inserted p) :
    p.status = fullStr ∧ p.fill_percent = 100
    ∧ p.last_fill_date = some today ∧ p.last_test_date = some today
    ∧ p.next_test_due = some (today + 1825) ∧ p.overdue = false := by
  unfold addCylinderSubmit at h
  by_cases hc : upStr (trimStr raw) = []
  · rw [if_pos hc] at h; exact RegOutcome.noConfusion h
  · rw [if_neg hc] at h
    cases h
    exact ⟨rfl, rfl, rfl, rfl, rfl, rfl⟩

/-- C4 witness at a concrete successful registration. -/
theorem payload_on_success_w :
    addCylinderSubmit leoStr [] [] Capacity.c142 7
      = RegOutcome.inserted (mkPayload leoStr [] [] Capacity.c142 7)
    ∧ ((mkPayload leoStr [] [] Capacity.c142 7).status = fullStr
      ∧ (mkPayload leoStr [] [] Capacity.c142 7).fill_percent = 100
      ∧ (mkPayload leoStr [] [] Capacity.c142 7).last_fill_date = some 7
      ∧ (mkPayload leoStr [] [] Capacity.c142 7).last_test_date = some 7
      ∧ (mkPayload leoStr [] [] Capacity.c142 7).next_test_due = some (7 + 1825)
      ∧ (mkPayload leoStr [] [] Capacity.c142 7).overdue = false) :=
  ⟨by decide, payload_on_success leoStr [] [] Capacity.c142 7 _ (by decide)⟩

/-- C6 counterexample: `Series.str.contains` treats the query as a
regular expression by default, so the query "." (code 46) keeps the
record with id "LEO-001" in the result even though "." is not a
substring of that id — the claim's substring reading of the filter is
false of the program. -/
theorem cylinderFinder_substring_cex :
    cylinderFinderRe [leoRec] [46] [] allStr = some [leoRec]
    ∧ hasSub (upStr leoRec.cylinder_id) (upStr (trimStr [46])) = false := by
  exact ⟨by decide, by decide⟩

/-- C6 amended: when the stripped (and upper-cased) text queries
compile in the modelled regex fragment, a record is in the search
result exactly when it passes all supplied filters conjunctively,
where the two text matches are case-insensitive regex searches, an
empty query and the "All" sentinel match everything; on queries free
of regex metacharacters the regex search coincides with plain
substring containment — so the query "leo" finds id "LEO-001". -/
theorem cylinderFinder_regex_spec (recs : List CRecord)
    (rawId rawName sStatus : Str) (r : CRecord)
    (psId psName : List RAtom) (q s : Str)
    (hId : reParse (upStr (trimStr rawId)) = some psId)
    (hName : reParse (upStr (trimStr rawName)) = some psName)
    (hq : q.all (fun c => !reMeta c) = true) :
    (cylinderFinderRe recs rawId rawName sStatus).isSome = true
    ∧ (r ∈ (cylinderFinderRe recs rawId rawName sStatus).getD []
        ↔ r ∈ recs
        ∧ (trimStr rawId = [] ∨ reSearch psId (upStr r.cylinder_id) = true)
        ∧ (trimStr rawName = []
            ∨ reSearch psName (upStr r.customer_name) = true)
        ∧ (sStatus = allStr ∨ r.status = sStatus))
    ∧ reParse q = some (q.map RAtom.lit)
    ∧ reSearch (q.map RAtom.lit) s = hasSub s q
    ∧ cylinderFinderRe [leoRec] [108, 101, 111] [] allStr = some [leoRec] := by
  obtain ⟨l1, hl1, hm1⟩ := idFilterRe_eq_some recs hId
  obtain ⟨l2, hl2, hm2⟩ := nameFilterRe_eq_some l1 hName
  have hfin : cylinderFinderRe recs rawId rawName sStatus
      = some (statusFilter sStatus l2) := by
    unfold cylinderFinderRe
    rw [hl1, Option.some_bind, hl2, Option.some_bind]
  refine ⟨by rw [hfin]; rfl, ?_, reParse_lit hq, reSearch_lit q s, by decide⟩
  rw [hfin]
  show r ∈ statusFilter sStatus l2 ↔ _
  rw [mem_statusFilter, hm2 r, hm1 r]
  tauto

/-- C6 amended witness: the concrete query "leo" against the record
"LEO-001" with no customer query and the "All" status. -/
theorem cylinderFinder_regex_spec_w :
    reParse (upStr (trimStr [108, 101, 111]))
      = some [RAtom.lit 76, RAtom.lit 69, RAtom.lit 79]
    ∧ reParse (upStr (trimStr ([] : Str))) = some []
    ∧ ([76, 69, 79] : Str).all (fun c => !reMeta c) = true
    ∧ ((cylinderFinderRe [leoRec] [108, 101, 111] [] allStr).isSome = true
      ∧ (leoRec ∈ (cylinderFinderRe [leoRec] [108, 101, 111] [] allStr).getD []
          ↔ leoRec ∈ [leoRec]
          ∧ (trimStr [108, 101, 111] = []
              ∨ reSearch [RAtom.lit 76, RAtom.lit 69, RAtom.lit 79]
                  (upStr leoRec.cylinder_id) = true)
          ∧ (trimStr ([] : Str) = []
              ∨ reSearch [] (upStr leoRec.customer_name) = true)
          ∧ (allStr = allStr ∨ leoRec.status = allStr))
      ∧ reParse [76, 69, 79] = some ((([76, 69, 79] : Str)).map RAtom.lit)
      ∧ reSearch ((([76, 69, 79] : Str)).map RAtom.lit) leoStr
          = hasSub leoStr [76, 69, 79]
      ∧ cylinderFinderRe [leoRec] [108, 101, 111] [] allStr = some [leoRec]) :=
  ⟨by decide, by decide, by decide,
    cylinderFinder_regex_spec [leoRec] [108, 101, 111] [] allStr leoRec
      [RAtom.lit 76, RAtom.lit 69, RAtom.lit 79] [] [76, 69, 79] leoStr
      (by decide) (by decide) (by decide)⟩

/-- C8 counterexample: a record registered on day 0 keeps its stored
`Overdue := false` column, yet on day 1825 the derived predicate
(reference ≥ next test due) is already true — the column is not kept
consistent with the dates. -/
theorem overdue_column_cex :
    ¬ (∀ r : CRecord, ReachableRec r →
        ∀ today : Nat, r.overdue = is_overdue_opt r.next_test_due today) := by
  intro h
  have hx := h (mkPayload leoStr [] [] Capacity.c142 0)
    (ReachableRec.created leoStr [] [] Capacity.c142 0
      (mkPayload leoStr [] [] Capacity.c142 0) (by decide)) 1825
  exact absurd hx (by decide)

/-- C8 amended: every reachable record keeps `overdue = false` and a
present `next_test_due`, so the stored column agrees with the derived
predicate exactly for reference dates strictly before the due date
(creation sets it consistently; no later operation refreshes it). -/
theorem overdue_column_agree (r : CRecord) (today : Nat)
    (h : ReachableRec r) :
    r.overdue = false
    ∧ r.next_test_due = some (r.next_test_due.getD 0)
    ∧ (r.overdue = is_overdue_opt r.next_test_due today ↔
        today < r.next_test_due.getD 0) := by
  induction h with
  | created raw cust pin cap cday p hp =>
      unfold addCylinderSubmit at hp
      by_cases hc : upStr (trimStr raw) = []
      · rw [if_pos hc] at hp; exact RegOutcome.noConfusion hp
      · rw [if_neg hc] at hp
        cases hp
        refine ⟨rfl, rfl, ?_⟩
        simp only [mkPayload, is_overdue_opt, Option.getD_some]
        rw [eq_comm, decide_eq_false_iff_not, not_le]
  | returned r c hr ih =>
      obtain ⟨h1, h2, h3⟩ := ih
      have e1 : (applyPatch r (returnPatch c)).overdue = r.overdue := rfl
      have e2 : (applyPatch r (returnPatch c)).next_test_due = r.next_test_due :=
        rfl
      rw [e1, e2]
      exact ⟨h1, h2, h3⟩

/-- C8 amended witness at a record registered on day 0, checked on
day 7. -/
theorem overdue_column_agree_w :
    (mkPayload leoStr [] [] Capacity.c142 0).overdue = false
    ∧ (mkPayload leoStr [] [] Capacity.c142 0).next_test_due
        = some ((mkPayload leoStr [] [] Capacity.c142 0).next_test_due.getD 0)
    ∧ ((mkPayload leoStr [] [] Capacity.c142 0).overdue =
        is_overdue_opt (mkPayload leoStr [] [] Capacity.c142 0).next_test_due 7 ↔
        7 < (mkPayload leoStr [] [] Capacity.c142 0).next_test_due.getD 0) :=
  overdue_column_agree (mkPayload leoStr [] [] Capacity.c142 0) 7
    (ReachableRec.created leoStr [] [] Capacity.c142 0
      (mkPayload leoStr [] [] Capacity.c142 0) (by decide))

/-- C9: a record whose due date was coerced to null is never counted
as overdue — the evaluation returns false on it (it is a total
function, so it cannot raise) and it contributes nothing to
`overdue_count`. -/
theorem overdue_null_safe (r : CRecord) (today : Nat) (recs : List CRecord)
    (h : r.next_test_due = none) :
    is_overdue_opt r.next_test_due today = false
    ∧ overdue_count (r :: recs) today = overdue_count recs today := by
  have hp : is_overdue_opt r.next_test_due today = false := by rw [h]; rfl
  refine ⟨hp, ?_⟩
  unfold overdue_count
  rw [List.filter_cons, hp]
  simp

/-- C9 witness at a concrete null-due record. -/
theorem overdue_null_safe_w :
    nullDueRec.next_test_due = none
    ∧ (is_overdue_opt nullDueRec.next_test_due 999 = false
      ∧ overdue_count [nullDueRec] 999 = overdue_count [] 999) :=
  ⟨rfl, overdue_null_safe nullDueRec 999 [] rfl⟩

/-- C10: every inserted payload's id is the user input stripped and
upper-cased; consequently it is a fixed point of upper-casing (no
lowercase ASCII letters survive, stated both ways) and a fixed point
of stripping (no leading or trailing whitespace). -/
theorem inserted_id_normalized (raw cust pin : Str) (cap : Capacity)
    (today : Nat) (p : CRecord)
    (h : addCylinderSubmit raw cust pin cap today = RegOutcome.inserted p) :
    p.cylinder_id = upStr (trimStr raw)
    ∧ upStr p.cylinder_id = p.cylinder_id
    ∧ trimStr p.cylinder_id = p.cylinder_id
    ∧ p.cylinder_id.all (fun x => decide (¬ (97 ≤ x ∧ x ≤ 122))) = true := by
  unfold addCylinderSubmit at h
  by_cases hc : upStr (trimStr raw) = []
  · rw [if_pos hc] at h; exact RegOutcome.noConfusion h
  · rw [if_neg hc] at h
    cases h
    exact ⟨rfl, upStr_idem (trimStr raw), trimStr_upStr_trimStr raw,
      upStr_all_not_lower (trimStr raw)⟩

/-- C10 witness: registering " leo-42\t" stores id "LEO-42". -/
theorem inserted_id_normalized_w :
    addCylinderSubmit [32, 108, 101, 111, 45, 52, 50, 9] [] [] Capacity.c5 0
      = RegOutcome.inserted
          (mkPayload [76, 69, 79, 45, 52, 50] [] [] Capacity.c5 0)
    ∧ ((mkPayload [76, 69, 79, 45, 52, 50] [] [] Capacity.c5 0).cylinder_id
        = upStr (trimStr [32, 108, 101, 111, 45, 52, 50, 9])
      ∧ upStr (mkPayload [76, 69, 79, 45, 52, 50] [] [] Capacity.c5 0).cylinder_id
        = (mkPayload [76, 69, 79, 45, 52, 50] [] [] Capacity.c5 0).cylinder_id
      ∧ trimStr (mkPayload [76, 69, 79, 45, 52, 50] [] [] Capacity.c5 0).cylinder_id
        = (mkPayload [76, 69, 79, 45, 52, 50] [] [] Capacity.c5 0).cylinder_id
      ∧ (mkPayload [76, 69, 79, 45, 52, 50] [] [] Capacity.c5 0).cylinder_id.all
          (fun x => decide (¬ (97 ≤ x ∧ x ≤ 122))) = true) :=
  ⟨by decide,
    inserted_id_normalized [32, 108, 101, 111, 45, 52, 50, 9] [] []
      Capacity.c5 0 (mkPayload [76, 69, 79, 45, 52, 50] [] [] Capacity.c5 0)
      (by decide)⟩

end LGas
